import Mathlib

/-!
Verification development for the `gcp_exceptions` repository.

The repository has two independent utilities:

* `process_exceptions.py` / `schema_models.py` — a CLI that validates a JSON
  "exceptions" document with pydantic (`ExceptionsSchema.model_validate`),
  matches each rule's `project_id_regex` against a project id with `re.match`,
  aggregates the service accounts of matched rules with first-occurrence
  de-duplication, and writes a `terraform.tfvars.json` file with
  `json.dump(..., indent=4)`.
* `secret-renewal-function/main.py` — an event handler that parses an
  extension duration (`parse_time_duration`) and extends a secret's
  expiration from its current `expire_time`.

This file shallowly embeds those programs: JSON values are an inductive
`JValue`, Python's `re` is embedded for the metacharacter subset the
repository uses (`^`, `$`, `.`, `*`, literals; anything else the embedded
compiler rejects, as `re.compile` rejects e.g. an unbalanced `(`), pydantic
field validation is embedded check-for-check from the `Field(...)`
declarations, and timestamps/durations are modelled as rationals.

A central code fact the embedding preserves: in `schema_models.py` the
methods `validate_unique_ids` and `validate_regex` carry no pydantic
decorator (`@model_validator` / `@field_validator`), so
`ExceptionsSchema.model_validate` never invokes them.  They are embedded
as the plain functions they are, separate from `model_validate`.
-/

/-! ### JSON values

`JValue` models the values `json.loads` produces: `None`, `bool`, numbers
(modelled as rationals), `str`, `list`, `dict` (insertion-ordered key/value
pairs, as Python dicts are). -/

inductive JValue : Type
  | null : JValue
  | bool : Bool → JValue
  | num : ℚ → JValue
  | str : String → JValue
  | arr : List JValue → JValue
  | obj : List (String × JValue) → JValue

/-- Dict lookup: later occurrences of a key shadow earlier ones, as in a
Python dict built by repeated insertion. -/
def jLookup (kvs : List (String × JValue)) (k : String) : Option JValue :=
  (kvs.reverse.find? (fun p => p.1 = k)).map (·.2)

/-! ### Regular expressions

An AST for the metacharacter subset of Python `re` that the repository's
patterns use: literal characters, `^` (start anchor), `$` (end anchor),
`.` (any character except newline), postfix `*` on an atom, concatenation. -/

inductive RE : Type
  | eps : RE
  | chr : Char → RE
  | dot : RE
  | bol : RE
  | eol : RE
  | cat : RE → RE → RE
  | star : RE → RE
  deriving DecidableEq

/-- End positions reachable by iterating `step` zero or more times from `i`,
only ever stepping to strictly larger positions (a productive `*`
iteration consumes at least one character).  `fuel` bounds the number of
iterations; `stringLength + 1` iterations are always enough. -/
def starEnds (step : Nat → List Nat) : Nat → Nat → List Nat
  | 0, i => [i]
  | fuel + 1, i =>
      i :: (((step i).filter (fun j => i < j)).map (fun j => starEnds step fuel j)).flatten

/-- `matchEnds r s i` is the list of positions `j` such that `r` matches the
slice of `s` from `i` to `j`.  Anchors are interpreted against the whole
string `s`, as in Python `re` without `MULTILINE`: `^` matches only at
position 0; `$` matches at the end of the string, or just before a final
newline; `.` matches any character except `'\n'`. -/
def matchEnds : RE → List Char → Nat → List Nat
  | .eps, _, i => [i]
  | .chr c, s, i =>
      if h : i < s.length then (if s.get ⟨i, h⟩ = c then [i + 1] else []) else []
  | .dot, s, i =>
      if h : i < s.length then (if s.get ⟨i, h⟩ = '\n' then [] else [i + 1]) else []
  | .bol, _, i => if i = 0 then [i] else []
  | .eol, s, i =>
      if i = s.length then [i]
      else if h : i < s.length then
        (if i + 1 = s.length ∧ s.get ⟨i, h⟩ = '\n' then [i] else [])
      else []
  | .cat a b, s, i => ((matchEnds a s i).map (fun j => matchEnds b s j)).flatten
  | .star a, s, i => starEnds (fun j => matchEnds a s j) (s.length + 1) i

/-- Python `re.match(r, s)` is truthy iff `r` matches some slice of `s`
starting at position 0 — a prefix test: the match need not reach the end
of the string. -/
def reMatchB (r : RE) (s : String) : Bool :=
  !(matchEnds r s.toList 0).isEmpty

/-- Python `re.fullmatch(r, s)` is truthy iff `r` matches the whole of `s`:
some match starting at 0 ends exactly at `s.length`.  (The repository never
calls `fullmatch`; this definition exists to state that `re.match` is not
it.) -/
def reFullMatchB (r : RE) (s : String) : Bool :=
  (matchEnds r s.toList 0).contains s.toList.length

/-- Characters the embedded compiler refuses: Python `re` metacharacters
whose constructs (classes, groups, alternation, escapes, bounded repeats,
`+`, `?`) are outside the embedded subset.  An unbalanced `(` — the shape of
pattern `re.compile` itself rejects — is among them. -/
def reUnsupported (c : Char) : Bool :=
  c = '\\' || c = '(' || c = ')' || c = '[' || c = ']' ||
  c = '\x7b' || c = '\x7d' || c = '+' || c = '?' || c = '|'

/-- One pass of pattern compilation, accumulating atoms in reverse order so
that a postfix `*` can attach to the previous atom. -/
def compileLoop : List Char → List RE → Option (List RE)
  | [], acc => some acc
  | c :: rest, acc =>
      if c = '^' then compileLoop rest (RE.bol :: acc)
      else if c = '$' then compileLoop rest (RE.eol :: acc)
      else if c = '.' then compileLoop rest (RE.dot :: acc)
      else if c = '*' then
        match acc with
        | RE.chr d :: acc2 => compileLoop rest (RE.star (RE.chr d) :: acc2)
        | RE.dot :: acc2 => compileLoop rest (RE.star RE.dot :: acc2)
        | _ => none
      else if reUnsupported c then none
      else compileLoop rest (RE.chr c :: acc)

/-- `re.compile` on the embedded subset: `some r` when the pattern is
well-formed, `none` when compilation raises `re.error`. -/
def compileRE (pattern : String) : Option RE :=
  (compileLoop pattern.toList []).map (fun acc => acc.foldl (fun r a => RE.cat a r) RE.eps)

/-- `re.match(pattern, s)`: compile, then prefix-test.  `none` models the
`re.error` raised for a malformed pattern; `some b` is the truthiness of the
match object. -/
def pyReMatch (pattern s : String) : Option Bool :=
  (compileRE pattern).map (fun r => reMatchB r s)

/-! ### `json.loads`

A recursive-descent reader for the JSON grammar `json.loads` accepts
(objects, arrays, strings with escapes, strict numbers, `true`/`false`/
`null`, with insignificant whitespace; the non-standard
`NaN`/`Infinity` extension is outside the modelled subset).  `none` models
`json.JSONDecodeError`.  Recursion is on an explicit fuel, which the
top-level entry point supplies generously. -/

def isJsonWs (c : Char) : Bool :=
  c = ' ' || c = '\t' || c = '\n' || c = '\r'

def skipWs : List Char → List Char
  | [] => []
  | c :: rest => if isJsonWs c then skipWs rest else c :: rest

def isDigitCh (c : Char) : Bool := '0' ≤ c && c ≤ '9'

/-- Value of a hexadecimal digit (`0-9`, `a-f`, `A-F`), by code point. -/
def hexVal (c : Char) : Option Nat :=
  let n := c.toNat
  if 48 ≤ n ∧ n ≤ 57 then some (n - 48)
  else if 97 ≤ n ∧ n ≤ 102 then some (n - 87)
  else if 65 ≤ n ∧ n ≤ 70 then some (n - 55)
  else none

/-- Read the body of a JSON string after the opening quote, decoding
escapes, up to and including the closing quote. -/
def readStrChars : Nat → List Char → Option (List Char × List Char)
  | 0, _ => none
  | _ + 1, [] => none
  | fuel + 1, c :: rest =>
    if c = '"' then some ([], rest)
    else if c = '\\' then
      match rest with
      | [] => none
      | e :: rest2 =>
        if e = '"' ∨ e = '\\' ∨ e = '/' then
          (readStrChars fuel rest2).map (fun p => (e :: p.1, p.2))
        else if e = 'b' then (readStrChars fuel rest2).map (fun p => ('\x08' :: p.1, p.2))
        else if e = 'f' then (readStrChars fuel rest2).map (fun p => ('\x0c' :: p.1, p.2))
        else if e = 'n' then (readStrChars fuel rest2).map (fun p => ('\n' :: p.1, p.2))
        else if e = 'r' then (readStrChars fuel rest2).map (fun p => ('\r' :: p.1, p.2))
        else if e = 't' then (readStrChars fuel rest2).map (fun p => ('\t' :: p.1, p.2))
        else if e = 'u' then
          match rest2 with
          | h1 :: h2 :: h3 :: h4 :: rest3 =>
            match hexVal h1, hexVal h2, hexVal h3, hexVal h4 with
            | some a, some b, some c2, some d =>
              let n := a * 4096 + b * 256 + c2 * 16 + d
              -- Lone surrogates are replaced (surrogate pairing elided);
              -- no `\u` escape in this development's inputs uses them.
              let ch := if 0xd800 ≤ n ∧ n < 0xe000 then '�' else Char.ofNat n
              (readStrChars fuel rest3).map (fun p => (ch :: p.1, p.2))
            | _, _, _, _ => none
          | _ => none
        else none
    else if c.toNat < 0x20 then none
    else (readStrChars fuel rest).map (fun p => (c :: p.1, p.2))

/-- Split off a maximal run of decimal digits. -/
def takeDigits : List Char → (List Char × List Char)
  | [] => ([], [])
  | c :: rest =>
    if isDigitCh c then
      let p := takeDigits rest
      (c :: p.1, p.2)
    else ([], c :: rest)

def digitsToNat (l : List Char) : Nat :=
  l.foldl (fun acc c => acc * 10 + (c.toNat - '0'.toNat)) 0

/-- Read a JSON number (strict grammar: `-? (0 | [1-9][0-9]*) frac? exp?`)
as a rational. -/
def readNumber (l : List Char) : Option (ℚ × List Char) :=
  let (neg, l1) := match l with
    | '-' :: rest => (true, rest)
    | _ => (false, l)
  match l1 with
  | [] => none
  | c :: _ =>
    if ¬ isDigitCh c then none
    else
      let (ds, l2) := takeDigits l1
      if 1 < ds.length ∧ ds.headI = '0' then none
      else
        let intPart : ℚ := (digitsToNat ds : ℚ)
        let (fracPart, l3) : ℚ × List Char := match l2 with
          | '.' :: rest =>
            let (fs, l3) := takeDigits rest
            if fs.isEmpty then (-1, []) else ((digitsToNat fs : ℚ) / ((10 : ℚ) ^ fs.length), l3)
          | _ => (0, l2)
        if fracPart < 0 then none
        else
          let (expOk, expVal, l4) : Bool × ℤ × List Char := match l3 with
            | 'e' :: rest | 'E' :: rest =>
              let (esign, rest2) : ℤ × List Char := match rest with
                | '+' :: r => (1, r)
                | '-' :: r => (-1, r)
                | _ => (1, rest)
              let (es, l4) := takeDigits rest2
              if es.isEmpty then (false, 0, []) else (true, esign * (digitsToNat es : ℤ), l4)
            | _ => (true, 0, l3)
          if ¬ expOk then none
          else
            let mag : ℚ := (intPart + fracPart) * (10 : ℚ) ^ expVal
            some (if neg then -mag else mag, l4)

mutual

/-- Read one JSON value (leading whitespace allowed). -/
def parseJ : Nat → List Char → Option (JValue × List Char)
  | 0, _ => none
  | fuel + 1, l =>
    match skipWs l with
    | [] => none
    | c :: rest =>
      if c = '"' then (readStrChars (rest.length + 1) rest).map (fun p => (.str (String.mk p.1), p.2))
      else if c = '\x7b' then
        match skipWs rest with
        | '\x7d' :: rest2 => some (.obj [], rest2)
        | rest2 => (parseMembers fuel rest2).map (fun p => (.obj p.1, p.2))
      else if c = '[' then
        match skipWs rest with
        | ']' :: rest2 => some (.arr [], rest2)
        | rest2 => (parseItems fuel rest2).map (fun p => (.arr p.1, p.2))
      else if c = 't' then
        match rest with
        | 'r' :: 'u' :: 'e' :: rest2 => some (.bool true, rest2)
        | _ => none
      else if c = 'f' then
        match rest with
        | 'a' :: 'l' :: 's' :: 'e' :: rest2 => some (.bool false, rest2)
        | _ => none
      else if c = 'n' then
        match rest with
        | 'u' :: 'l' :: 'l' :: rest2 => some (.null, rest2)
        | _ => none
      else (readNumber (c :: rest)).map (fun p => (.num p.1, p.2))

/-- Read the members of an object, positioned at the first key. -/
def parseMembers : Nat → List Char → Option (List (String × JValue) × List Char)
  | 0, _ => none
  | fuel + 1, l =>
    match skipWs l with
    | '"' :: rest =>
      match readStrChars (rest.length + 1) rest with
      | none => none
      | some (kcs, rest2) =>
        match skipWs rest2 with
        | ':' :: rest3 =>
          match parseJ fuel rest3 with
          | none => none
          | some (v, rest4) =>
            match skipWs rest4 with
            | ',' :: rest5 => (parseMembers fuel rest5).map (fun p => ((String.mk kcs, v) :: p.1, p.2))
            | '\x7d' :: rest5 => some ([(String.mk kcs, v)], rest5)
            | _ => none
        | _ => none
    | _ => none

/-- Read the items of an array, positioned at the first item. -/
def parseItems : Nat → List Char → Option (List JValue × List Char)
  | 0, _ => none
  | fuel + 1, l =>
    match parseJ fuel l with
    | none => none
    | some (v, rest) =>
      match skipWs rest with
      | ',' :: rest2 => (parseItems fuel rest2).map (fun p => (v :: p.1, p.2))
      | ']' :: rest2 => some ([v], rest2)
      | _ => none

end

/-- `json.loads`: read one value, allow trailing whitespace, require the
whole input consumed.  `none` models `json.JSONDecodeError`. -/
def jsonLoads (s : String) : Option JValue :=
  match parseJ (2 * s.length + 4) s.toList with
  | none => none
  | some (v, rest) => if (skipWs rest).isEmpty then some v else none

/-! ### `json.dump(obj, f, indent=4)`

Python's serializer with `indent=4` and default separators `(',', ': ')`
and `ensure_ascii=True`.  Recursion is again fuel-bounded; the outputs this
program writes have depth at most 4 and contain only objects, arrays,
strings and booleans. -/

def hexDigitCh (n : Nat) : Char :=
  if n < 10 then Char.ofNat ('0'.toNat + n) else Char.ofNat ('a'.toNat + (n - 10))

def hex4 (n : Nat) : String :=
  String.mk [hexDigitCh (n / 4096 % 16), hexDigitCh (n / 256 % 16),
             hexDigitCh (n / 16 % 16), hexDigitCh (n % 16)]

/-- One character of a JSON string as Python emits it with
`ensure_ascii=True`: escape `"` and `\`, shortcuts for control characters,
`\uXXXX` (with surrogate pairs beyond the BMP) for everything outside
`0x20`–`0x7e`. -/
def escJChar (c : Char) : String :=
  if c = '"' then "\\\""
  else if c = '\\' then "\\\\"
  else if c = '\n' then "\\n"
  else if c = '\t' then "\\t"
  else if c = '\r' then "\\r"
  else if c = '\x08' then "\\b"
  else if c = '\x0c' then "\\f"
  else if c.toNat < 0x20 ∨ 0x7f ≤ c.toNat then
    if c.toNat < 0x10000 then "\\u" ++ hex4 c.toNat
    else
      "\\u" ++ hex4 (0xd800 + (c.toNat - 0x10000) / 0x400) ++
      "\\u" ++ hex4 (0xdc00 + (c.toNat - 0x10000) % 0x400)
  else String.singleton c

def jsonDumpStr (s : String) : String :=
  "\"" ++ String.join (s.toList.map escJChar) ++ "\""

def nSpaces (n : Nat) : String := String.mk (List.replicate n ' ')

/-- Serialize with indent width `ind` at nesting depth `depth`.  A JSON
number with denominator 1 prints as a Python `int`; non-integral numbers
(Python floats) never occur in this program's output and are given a
placeholder rendering. -/
def pyDumpF (ind : Nat) : Nat → JValue → Nat → String
  | 0, _, _ => ""
  | _ + 1, .null, _ => "null"
  | _ + 1, .bool b, _ => if b then "true" else "false"
  | _ + 1, .num q, _ => if q.den = 1 then toString q.num else toString q
  | _ + 1, .str s, _ => jsonDumpStr s
  | fuel + 1, .arr xs, depth =>
    match xs with
    | [] => "[]"
    | _ =>
      "[\n" ++
      String.intercalate ",\n"
        (xs.map (fun x => nSpaces ((depth + 1) * ind) ++ pyDumpF ind fuel x (depth + 1))) ++
      "\n" ++ nSpaces (depth * ind) ++ "]"
  | fuel + 1, .obj kvs, depth =>
    match kvs with
    | [] => "\x7b\x7d"
    | _ =>
      "\x7b\n" ++
      String.intercalate ",\n"
        (kvs.map (fun kv =>
          nSpaces ((depth + 1) * ind) ++ jsonDumpStr kv.1 ++ ": " ++
          pyDumpF ind fuel kv.2 (depth + 1))) ++
      "\n" ++ nSpaces (depth * ind) ++ "\x7d"

/-- `json.dump(v, f, indent=4)`: the string written to the file. -/
def pyDump4 (v : JValue) : String := pyDumpF 4 64 v 0

/-! ### The pydantic models of `schema_models.py`

Validated shapes, then `model_validate` embedded check-for-check from the
`Field(...)` declarations.  The patterns used by the fields
(`^\d+\.\d+\.\d+$`, `^\d{3}$`, `^[a-z](?:[-a-z0-9]*[a-z0-9])?$`) are all
anchored on both sides, so they are embedded directly as the string
predicates they denote. -/

structure ServiceAccount where
  name_suffix : String
  iam_roles : List String
  create_json_key : Bool
  description : String
  deriving DecidableEq

structure ServiceAccountSpec where
  service_accounts : List ServiceAccount
  deriving DecidableEq

structure Exception where
  id : String
  type : String
  project_id_regex : String
  description : String
  spec : ServiceAccountSpec
  deriving DecidableEq

structure ExceptionsSchema where
  version : String
  exceptions : List Exception
  deriving DecidableEq

def isLowerAZ (c : Char) : Bool := 'a' ≤ c && c ≤ 'z'

/-- Python `s.split(sep)` for a single-character separator, at the level of
character lists: `"".split` gives one empty group, consecutive separators
give empty groups. -/
def splitOnChar (sep : Char) : List Char → List (List Char)
  | [] => [[]]
  | c :: rest =>
    if c = sep then [] :: splitOnChar sep rest
    else
      match splitOnChar sep rest with
      | [] => [[c]]
      | g :: gs => (c :: g) :: gs

/-- The `version` pattern `^\d+\.\d+\.\d+$`: three nonempty digit groups
separated by dots. -/
def versionPat (s : String) : Bool :=
  match splitOnChar '.' s.toList with
  | [a, b, c] =>
      !a.isEmpty && !b.isEmpty && !c.isEmpty &&
      a.all isDigitCh && b.all isDigitCh && c.all isDigitCh
  | _ => false

/-- The `id` pattern `^\d{3}$`: exactly three decimal digits. -/
def idPat (s : String) : Bool :=
  s.toList.length = 3 && s.toList.all isDigitCh

/-- The `name_suffix` pattern `^[a-z](?:[-a-z0-9]*[a-z0-9])?$`: a lowercase
letter, optionally followed by `[-a-z0-9]*` ending in `[a-z0-9]` (so a
multi-character suffix never ends in `-`). -/
def nameSuffixPat (s : String) : Bool :=
  match s.toList with
  | [] => false
  | c :: rest =>
      isLowerAZ c &&
      (rest.isEmpty ||
        (rest.all (fun d => d = '-' || isLowerAZ d || isDigitCh d) &&
         (let last := rest.getLastD '-'
          isLowerAZ last || isDigitCh last)))

/-- Validate the items of a JSON list in order, failing on the first bad
item (as pydantic reports on the raw input in order). -/
def validateList {α : Type} (f : JValue → Except String α) : List JValue → Except String (List α)
  | [] => .ok []
  | x :: xs => do
    let a ← f x
    let as ← validateList f xs
    .ok (a :: as)

/-- Required field of JSON-string type. -/
def reqStr (kvs : List (String × JValue)) (k : String) : Except String String :=
  match jLookup kvs k with
  | some (.str s) => .ok s
  | some _ => .error (k ++ ": Input should be a valid string")
  | none => .error (k ++ ": Field required")

/-- Required field of JSON-boolean type. -/
def reqBool (kvs : List (String × JValue)) (k : String) : Except String Bool :=
  match jLookup kvs k with
  | some (.bool b) => .ok b
  | some _ => .error (k ++ ": Input should be a valid boolean")
  | none => .error (k ++ ": Field required")

/-- Validation of one `ServiceAccount` item: `name_suffix` with
`min_length=1, max_length=4` and its pattern; `iam_roles : List[str]` with
`min_length=1`; `create_json_key : bool`; `description` optional with
default `""` and `max_length=256`. -/
def validateServiceAccount (j : JValue) : Except String ServiceAccount :=
  match j with
  | .obj kvs => do
    let ns ← reqStr kvs "name_suffix"
    if ns.toList.length < 1 then .error "name_suffix: String should have at least 1 character"
    else if 4 < ns.toList.length then .error "name_suffix: String should have at most 4 characters"
    else if ¬ nameSuffixPat ns then .error "name_suffix: String should match pattern"
    else do
      let roles ← match jLookup kvs "iam_roles" with
        | some (.arr xs) => validateList (fun x => match x with
            | .str s => Except.ok s
            | _ => Except.error "iam_roles: Input should be a valid string") xs
        | some _ => .error "iam_roles: Input should be a valid list"
        | none => .error "iam_roles: Field required"
      if roles.length < 1 then .error "iam_roles: List should have at least 1 item"
      else do
        let cjk ← reqBool kvs "create_json_key"
        let desc ← match jLookup kvs "description" with
          | some (.str s) => Except.ok s
          | some _ => Except.error "description: Input should be a valid string"
          | none => Except.ok ""
        if 256 < desc.toList.length then .error "description: String should have at most 256 characters"
        else .ok ⟨ns, roles, cjk, desc⟩
  | _ => .error "service_accounts item: Input should be a valid dictionary"

/-- Validation of the `spec` payload: `service_accounts` with
`min_length=1`. -/
def validateSpec (j : JValue) : Except String ServiceAccountSpec :=
  match j with
  | .obj kvs => do
    let sas ← match jLookup kvs "service_accounts" with
      | some (.arr xs) => validateList validateServiceAccount xs
      | some _ => .error "service_accounts: Input should be a valid list"
      | none => .error "service_accounts: Field required"
    if sas.length < 1 then .error "service_accounts: List should have at least 1 item"
    else .ok ⟨sas⟩
  | _ => .error "spec: Input should be a valid dictionary"

/-- Validation of one exception rule: `id` with pattern `^\d{3}$`;
`type : Literal["create_service_accounts"]`; `project_id_regex` with
`min_length=1`; `description` with `min_length=1`; nested `spec`.

NOTE (faithful to the source): the method `validate_regex` defined on this
model carries no pydantic decorator, so it is *not* part of validation —
no compilation of `project_id_regex` happens here. -/
def validateException (j : JValue) : Except String Exception :=
  match j with
  | .obj kvs => do
    let i ← reqStr kvs "id"
    if ¬ idPat i then .error "id: String should match pattern"
    else do
      let ty ← reqStr kvs "type"
      if ty ≠ "create_service_accounts" then
        .error "type: Input should be 'create_service_accounts'"
      else do
        let rgx ← reqStr kvs "project_id_regex"
        if rgx.toList.length < 1 then .error "project_id_regex: String should have at least 1 character"
        else do
          let desc ← reqStr kvs "description"
          if desc.toList.length < 1 then .error "description: String should have at least 1 character"
          else do
            let sp ← match jLookup kvs "spec" with
              | some v => validateSpec v
              | none => .error "spec: Field required"
            .ok ⟨i, ty, rgx, desc, sp⟩
  | _ => .error "exceptions item: Input should be a valid dictionary"

/-- `ExceptionsSchema.model_validate`: `version` with pattern
`^\d+\.\d+\.\d+$` and `exceptions : List[Exception]` with `min_length=0`.

NOTE (faithful to the source): the method `validate_unique_ids` defined on
this model carries no pydantic decorator, so it is *not* part of
validation — no uniqueness check on ids happens here. -/
def ExceptionsSchema.model_validate (j : JValue) : Except String ExceptionsSchema :=
  match j with
  | .obj kvs => do
    let v ← reqStr kvs "version"
    if ¬ versionPat v then .error "version: String should match pattern"
    else do
      let excs ← match jLookup kvs "exceptions" with
        | some (.arr xs) => validateList validateException xs
        | some _ => .error "exceptions: Input should be a valid list"
        | none => .error "exceptions: Field required"
      .ok ⟨v, excs⟩
  | _ => .error "Input should be a valid dictionary"

/-- The source's `ExceptionsSchema.validate_unique_ids`, as the plain
(undecorated, hence never-invoked-by-`model_validate`) method it is:
`len(ids) != len(set(ids))` raises a `ValueError` naming the duplicates.
(The message renders the duplicate ids comma-separated; Python renders the
`set` with its own repr — same ids, different punctuation.) -/
def ExceptionsSchema.validate_unique_ids (s : ExceptionsSchema) : Except String ExceptionsSchema :=
  let ids := s.exceptions.map (·.id)
  if ids.length ≠ ids.dedup.length then
    .error ("Duplicate exception IDs found: " ++
      String.intercalate ", " (ids.filter (fun i => 1 < ids.count i)).dedup)
  else .ok s

/-- The source's `Exception.validate_regex`, as the plain (undecorated,
hence never-invoked-by-`model_validate`) method it is: `re.compile` on
`project_id_regex` raising turns into a `ValueError`. -/
def Exception.validate_regex (e : Exception) : Except String Exception :=
  match compileRE e.project_id_regex with
  | some _ => .ok e
  | none => .error ("Invalid regex pattern '" ++ e.project_id_regex ++ "'")

/-! ### The matching-and-aggregation loop of `process_exceptions` -/

/-- `sa.model_dump()`: keys in pydantic field-declaration order. -/
def ServiceAccount.model_dump (sa : ServiceAccount) : JValue :=
  .obj [("name_suffix", .str sa.name_suffix),
        ("iam_roles", .arr (sa.iam_roles.map .str)),
        ("create_json_key", .bool sa.create_json_key),
        ("description", .str sa.description)]

structure MatchOutcome where
  matched_exceptions : List String
  service_accounts : List ServiceAccount
  iam_policy_overrides : List JValue

/-- `if sa_dict not in service_accounts: service_accounts.append(sa_dict)`.
The dicts produced by `model_dump` all have the same keys, so Python dict
equality coincides with field-wise record equality. -/
def appendIfNew (l : List ServiceAccount) (x : ServiceAccount) : List ServiceAccount :=
  if x ∈ l then l else l ++ [x]

/-- The `for exception in valid_exceptions:` loop.  `re.match` first
compiles the pattern, so a malformed pattern raises `re.error` here whether
or not it would match.  The `override_iam_policies` branch reads
`exception.spec.boolean_policy_overrides`, an attribute `ServiceAccountSpec`
does not define, so reaching it raises `AttributeError`.  A matched rule of
any other type falls through both branches and contributes nothing. -/
def matchLoop (project_id : String) : List Exception → MatchOutcome → Except String MatchOutcome
  | [], acc => .ok acc
  | exc :: rest, acc =>
    match compileRE exc.project_id_regex with
    | none => .error ("re.error: bad pattern '" ++ exc.project_id_regex ++ "'")
    | some r =>
      if reMatchB r project_id then
        let acc1 : MatchOutcome :=
          { acc with matched_exceptions := acc.matched_exceptions ++ [exc.id] }
        if exc.type = "create_service_accounts" then
          matchLoop project_id rest
            { acc1 with service_accounts := exc.spec.service_accounts.foldl appendIfNew acc1.service_accounts }
        else if exc.type = "override_iam_policies" then
          .error "AttributeError: 'ServiceAccountSpec' object has no attribute 'boolean_policy_overrides'"
        else
          matchLoop project_id rest acc1
      else matchLoop project_id rest acc

/-- Module-level constant of `process_exceptions.py`. -/
def region : String := "europe-west4"

/-- `process_exceptions(schema_data, project_id, output_path)`: validate
(wrapping any validation error in `ValueError("Invalid schema: ...")`),
run the matching loop, and build the `terraform_vars` dict in insertion
order.  The returned `JValue` is what `json.dump` serializes to the output
file; `.error` models the exception propagating out (no file written). -/
def process_exceptions (schema_data : JValue) (project_id : String) : Except String JValue :=
  match ExceptionsSchema.model_validate schema_data with
  | .error e => .error ("Invalid schema: " ++ e)
  | .ok full_schema =>
    match matchLoop project_id full_schema.exceptions ⟨[], [], []⟩ with
    | .error e => .error e
    | .ok mo =>
      .ok (.obj [("project_id", .str project_id),
                 ("region", .str region),
                 ("service_accounts", .arr (mo.service_accounts.map ServiceAccount.model_dump)),
                 ("iam_policy_overrides", .arr mo.iam_policy_overrides)])

/-! ### The `__main__` flow (CLI, `--schema-json-string` form) -/

/-- Observable side effects of a CLI run, in order. -/
inductive Effect : Type
  | mkdirParent : Effect
  | writeOutput : String → Effect
  | exitOne : Effect
  | raised : String → Effect
  deriving DecidableEq

/-- Is this effect a write of the output file? -/
def Effect.isWrite : Effect → Bool
  | .writeOutput _ => true
  | _ => false

/-- The `__main__` block with `--schema-json-string`: `json.loads` failure
logs and calls `exit(1)` before anything else; otherwise
`output_file.parent.mkdir(parents=True, exist_ok=True)` runs, then
`process_exceptions`, whose uncaught exception (non-zero interpreter exit)
or successful write ends the run. -/
def cliMainJsonString (raw : String) (project_id : String) : List Effect :=
  match jsonLoads raw with
  | none => [.exitOne]
  | some schema_data =>
    Effect.mkdirParent ::
      (match process_exceptions schema_data project_id with
       | .error e => [.raised e]
       | .ok out => [.writeOutput (pyDump4 out)])

/-! ### Specification-side helpers for the aggregation law -/

/-- Does this rule match the project id, as the loop tests it
(`re.match(exception.project_id_regex, project_id)`)?  `false` also for a
malformed pattern; the loop raises there, so this is only consulted under
the hypothesis that the loop returned. -/
def ruleMatchB (e : Exception) (project_id : String) : Bool :=
  match compileRE e.project_id_regex with
  | some r => reMatchB r project_id
  | none => false

/-- The service accounts contributed by matched `create_service_accounts`
rules, in rule document order and within-rule declaration order, before
de-duplication. -/
def saContrib (excs : List Exception) (project_id : String) : List ServiceAccount :=
  ((excs.filter (fun e => ruleMatchB e project_id && e.type == "create_service_accounts")).map
    (fun e => e.spec.service_accounts)).flatten

/-- Keep the first occurrence of each element, drop every later duplicate.
This is the de-duplication law as the spec states it. -/
def firstKeep {α : Type} [DecidableEq α] : List α → List α
  | [] => []
  | x :: xs => x :: firstKeep (xs.filter (fun y => y ≠ x))
  termination_by l => l.length
  decreasing_by
    simp only [List.length_cons]
    exact Nat.lt_succ_of_le (List.length_filter_le _ _)

/-! ### `secret-renewal-function/main.py` -/

/-- Is `pat` an initial segment of `s`? -/
def leadsWith : List Char → List Char → Bool
  | [], _ => true
  | _ :: _, [] => false
  | p :: ps, c :: cs => p = c && leadsWith ps cs

/-- Python `s.replace(pat, repl)` for a nonempty `pat`, at the level of
character lists: replace non-overlapping occurrences left to right.  Fuel
is the string length, enough because each step consumes at least one
character. -/
def replaceChars (pat repl : List Char) : Nat → List Char → List Char
  | 0, s => s
  | fuel + 1, s =>
    match s with
    | [] => []
    | c :: cs =>
      if leadsWith pat s && !pat.isEmpty then
        repl ++ replaceChars pat repl fuel (s.drop pat.length)
      else c :: replaceChars pat repl fuel cs

/-- Python `s.replace(pat, repl)` (as used in the handler: `pat` nonempty). -/
def pyReplace (s pat repl : String) : String :=
  String.mk (replaceChars pat.toList repl.toList s.toList.length s.toList)

/-- Python `s.split(sep)` for a nonempty multi-character separator, at the
level of character lists. -/
def splitOnList (sep : List Char) : Nat → List Char → List (List Char)
  | 0, s => [s]
  | fuel + 1, s =>
    match s with
    | [] => [[]]
    | c :: cs =>
      if leadsWith sep s && !sep.isEmpty then
        [] :: splitOnList sep fuel (s.drop sep.length)
      else
        match splitOnList sep fuel cs with
        | [] => [[c]]
        | g :: gs => (c :: g) :: gs

/-- Python `sub in s`: does `sub` occur in `s`?  (`s.split(sub)` has at
least two parts exactly when it does.) -/
def containsSub (s sub : String) : Bool :=
  2 ≤ (splitOnList sub.toList (s.toList.length + 1) s.toList).length

/-- Python `s.lower()`, at the level of character lists. -/
def lowerChars (s : String) : List Char :=
  s.toList.map Char.toLower

/-- The numeric group `\d*\.?\d+` of `parse_time_duration`'s pattern:
characters are digits or a dot, at most one dot, the last character is a
digit (so the group is nonempty and there is at least one digit after any
dot). -/
def durNumPat (l : List Char) : Bool :=
  !l.isEmpty &&
  l.all (fun c => isDigitCh c || c = '.') &&
  l.count '.' ≤ 1 &&
  isDigitCh (l.getLastD '.')

/-- Exact value of the matched numeric group (Python converts it with
`float`; the value is modelled exactly as a rational). -/
def durValue (l : List Char) : ℚ :=
  match splitOnChar '.' l with
  | [a] => (digitsToNat a : ℚ)
  | [a, b] => (digitsToNat a : ℚ) + (digitsToNat b : ℚ) / (10 : ℚ) ^ b.length
  | _ => 0

/-- Drop one final `'\n'`, if any.  Python `re`'s `$` (without
`MULTILINE`) matches at the end of the string *or just before one final
newline*, and in `parse_time_duration`'s pattern the `[dhm]` group sits
immediately before `$`, so the pattern accepts exactly the inputs whose
one-trailing-newline-stripped form is `<number><unit>`:
`re.match(r'^(\d*\.?\d+)([dhm])$', '2d\n')` succeeds with groups
`("2", "d")`. -/
def stripFinalNewline (l : List Char) : List Char :=
  if l.getLastD ' ' = '\n' then l.dropLast else l

/-- `parse_time_duration(duration_str)`: empty string fails; otherwise the
lowercased string must match `^(\d*\.?\d+)([dhm])$` — where `$` also
matches just before one final newline (see `stripFinalNewline`); the
result is in days (`d` as is, `h` divided by 24, `m` divided by 24*60). -/
def parse_time_duration (duration_str : String) : Except String ℚ :=
  if duration_str.isEmpty then .error "Duration string is empty"
  else
    if ((stripFinalNewline (lowerChars duration_str)).getLastD ' ' = 'd' ||
        (stripFinalNewline (lowerChars duration_str)).getLastD ' ' = 'h' ||
        (stripFinalNewline (lowerChars duration_str)).getLastD ' ' = 'm') &&
       durNumPat (stripFinalNewline (lowerChars duration_str)).dropLast then
      if (stripFinalNewline (lowerChars duration_str)).getLastD ' ' = 'd' then
        .ok (durValue (stripFinalNewline (lowerChars duration_str)).dropLast)
      else if (stripFinalNewline (lowerChars duration_str)).getLastD ' ' = 'h' then
        .ok (durValue (stripFinalNewline (lowerChars duration_str)).dropLast / 24)
      else
        .ok (durValue (stripFinalNewline (lowerChars duration_str)).dropLast / (24 * 60))
    else
      .error ("Invalid duration format: " ++ duration_str ++
        ". Must include time unit. Use formats like '1h', '2d', '30m'")

/-- A secret as `get_secret` returns it: its labels and its (possibly
absent) expiration timestamp.  Timestamps are modelled as rational days
since an arbitrary epoch; `timedelta(days=x)` is then `+ x`. -/
structure SecretResource where
  labels : List (String × String)
  expire_time : Option ℚ

def labelGet (labels : List (String × String)) (k : String) : Option String :=
  (labels.reverse.find? (fun p => p.1 = k)).map (·.2)

/-- The fields `handle_secret_expiration` reads from the Cloud Event
(`.get` calls, hence `Option`). -/
structure SecretEvent where
  event_type : Option String
  secret_name : Option String
  secret_id : Option String
  resource_container : Option String
  log_name : String

/-- What a run of the handler observably does: its returned status string,
whether it created a service-account key, whether it added a secret
version, and the expiration it wrote (if it reached `update_secret`). -/
structure HandlerOutcome where
  result : String
  key_created : Bool
  version_added : Bool
  new_expire_time : Option ℚ

/-- Python truthiness of an optional string: `None` and `""` are falsy. -/
def truthyOpt (o : Option String) : Bool :=
  match o with
  | some s => !s.isEmpty
  | none => false

/-- `log_name.split('/')[1] if '/logs/' in log_name else None`. -/
def extractProjectId (log_name : String) : Option String :=
  if containsSub log_name "/logs/" then
    ((splitOnChar '/' log_name.toList).get? 1).map String.mk
  else none

/-- `handle_secret_expiration`, from the event-type test to the
`update_secret` call.  `now` is the wall clock the function could read via
`datetime`; the source never does, and the new expiration is computed from
`secret_resource.expire_time` (`current_exp_dt + timedelta(days=...)`).
The surrounding `try` turns any raised error into an `"ERROR: ..."` return
value; GCP API calls themselves are modelled as succeeding.  Key creation
and the new secret version happen before the expiration check, so both can
have occurred when the expiration update is never reached. -/
def handle_secret_expiration (ev : SecretEvent) (secret : SecretResource) (now : ℚ) :
    HandlerOutcome :=
  if ev.event_type ≠ some "EXPIRES_IN_1_HOUR" then ⟨"OK", false, false, none⟩
  else
    match ev.resource_container with
    | none => ⟨"ERROR: 'NoneType' object has no attribute 'replace'", false, false, none⟩
    | some rc =>
      if ¬ (truthyOpt ev.secret_name && truthyOpt ev.secret_id &&
            !(pyReplace rc "projects/" "").isEmpty &&
            truthyOpt (extractProjectId ev.log_name)) then
        ⟨"ERROR: Missing required information", false, false, none⟩
      else
        if ¬ (truthyOpt (labelGet secret.labels "ccoe_service_account_name") &&
              truthyOpt (labelGet secret.labels "ccoe_expiration_extension_time")) then
          ⟨"OK", false, false, none⟩
        else
          match parse_time_duration
              ((labelGet secret.labels "ccoe_expiration_extension_time").getD "") with
          | .error _ => ⟨"ERROR: Invalid ccoe_expiration_extension_time value", false, false, none⟩
          | .ok expiration_extension_time =>
            match secret.expire_time with
            | none => ⟨"ERROR: No current expiration time found", true, true, none⟩
            | some current_expiration =>
              ⟨"OK", true, true, some (current_expiration + expiration_extension_time)⟩

/-! ### Concrete documents and values used to witness the theorems -/

/-- A service-account JSON object (Scenario-A-like payload). -/
def saDataJ : JValue :=
  .obj [("name_suffix", .str "data"), ("iam_roles", .arr [.str "roles/viewer"]),
        ("create_json_key", .bool true), ("description", .str "Data processing service account")]

/-- One `create_service_accounts` rule as a JSON object. -/
def ruleJ (i rgx : String) : JValue :=
  .obj [("id", .str i), ("type", .str "create_service_accounts"),
        ("project_id_regex", .str rgx),
        ("description", .str "Create service accounts"),
        ("spec", .obj [("service_accounts", .arr [saDataJ])])]

/-- The validated form of `saDataJ`. -/
def saData : ServiceAccount := ⟨"data", ["roles/viewer"], true, "Data processing service account"⟩

/-- The validated form of `ruleJ i rgx`. -/
def ruleR (i rgx : String) : Exception :=
  ⟨i, "create_service_accounts", rgx, "Create service accounts", ⟨[saData]⟩⟩

/-- Scenario C: two rules share the id `"100"`. -/
def dupIdDoc : JValue :=
  .obj [("version", .str "1.0.0"),
        ("exceptions", .arr [ruleJ "100" "^lab-", ruleJ "100" "^prod-"])]

/-- A document whose only rule's `project_id_regex` is the malformed `"("`
(`re.compile` raises `missing ), unterminated subpattern` on it). -/
def badRegexDoc : JValue :=
  .obj [("version", .str "1.0.0"), ("exceptions", .arr [ruleJ "100" "("])]

/-- A well-formed document with the spec's two example patterns. -/
def labDoc : JValue :=
  .obj [("version", .str "1.0.0"),
        ("exceptions", .arr [ruleJ "100" "^lab-", ruleJ "200" "^prod-.*$"])]

/-- The validated form of `labDoc`. -/
def labSchema : ExceptionsSchema :=
  ⟨"1.0.0", [ruleR "100" "^lab-", ruleR "200" "^prod-.*$"]⟩

/-- A second service-account payload, structurally different from `saData`. -/
def saComp : ServiceAccount := ⟨"comp", ["roles/editor"], false, ""⟩

/-- Two rules that both match `lab-dev-01` and both contribute `saData`. -/
def dupSaSchema : ExceptionsSchema :=
  ⟨"1.0.0",
   [⟨"100", "create_service_accounts", "^lab-", "Create service accounts", ⟨[saData, saComp]⟩⟩,
    ⟨"200", "create_service_accounts", "^lab-dev-.*$", "Create service accounts", ⟨[saData]⟩⟩]⟩

/-- The loop's outcome on `dupSaSchema` and `lab-dev-01`: both rules match,
the duplicate `saData` from rule 200 is dropped. -/
def dupSaOutcome : MatchOutcome := ⟨["100", "200"], [saData, saComp], []⟩

/-- The empty-rules document, as raw text and as parsed/validated values. -/
def emptyDoc : JValue := .obj [("version", .str "1.0.0"), ("exceptions", .arr [])]

def emptyRaw : String := "\x7b\"version\": \"1.0.0\", \"exceptions\": []\x7d"

def emptyOut : JValue :=
  .obj [("project_id", .str "lab-dev-01"), ("region", .str "europe-west4"),
        ("service_accounts", .arr []), ("iam_policy_overrides", .arr [])]

/-- Valid JSON that fails schema validation (`exceptions` is not a list). -/
def badSchemaRaw : String := "\x7b\"version\": \"1.0.0\", \"exceptions\": \"nope\"\x7d"

/-- `jsonLoads badSchemaRaw`. -/
def badSchemaDoc : JValue := .obj [("version", .str "1.0.0"), ("exceptions", .str "nope")]

/-- The output of `process_exceptions labDoc "lab-devops-99"`. -/
def labOut99 : JValue :=
  .obj [("project_id", .str "lab-devops-99"), ("region", .str "europe-west4"),
        ("service_accounts", .arr [saData.model_dump]), ("iam_policy_overrides", .arr [])]

/-- The mock event of `main.py`'s local-testing block, reduced to the
fields the handler reads. -/
def ev9 : SecretEvent :=
  ⟨some "EXPIRES_IN_1_HOUR",
   some "projects/401870235293/secrets/sa-key-srva-rad-01",
   some "sa-key-srva-rad-01",
   some "projects/401870235293",
   "projects/lab-xcs-client2/logs/secretmanager.googleapis.com%2Fsecret_event"⟩

/-- A secret carrying both required `ccoe_*` labels and an expiration. -/
def secret9 : SecretResource :=
  ⟨[("ccoe_service_account_name", "srva-rad-01"),
    ("ccoe_expiration_extension_time", "2d")], some 100⟩

/-! ### Theorems

Sanity evaluations first, then library lemmas about the embedded
functions, then one theorem per claim (each with a witness where its
statement carries hypotheses). -/

example : pyReMatch "^lab-" "lab-dev-01" = some true := by decide
example : pyReMatch "^prod-.*$" "staging-prod-1" = some false := by decide
example : pyReMatch "^prod-.*$" "prod-xyz" = some true := by decide
example : compileRE "(" = none := by decide

example : jsonLoads "\x7b\"a\": [null, true]\x7d" = some (.obj [("a", .arr [.null, .bool true])]) := by rfl
example : jsonLoads "\x7b" = none := by rfl
example : jsonLoads "not json" = none := by rfl
example : pyDump4 (.obj [("a", .str "x"), ("b", .arr [.bool false])]) =
    "\x7b\n    \"a\": \"x\",\n    \"b\": [\n        false\n    ]\n\x7d" := by rfl

theorem firstKeep_nil {α : Type} [DecidableEq α] : firstKeep ([] : List α) = [] := by
  rw [firstKeep]

theorem firstKeep_cons {α : Type} [DecidableEq α] (x : α) (xs : List α) :
    firstKeep (x :: xs) = x :: firstKeep (xs.filter (fun y => y ≠ x)) := by
  rw [firstKeep]

theorem firstKeep_sublist {α : Type} [DecidableEq α] (l : List α) : (firstKeep l).Sublist l := by
  induction l using firstKeep.induct with
  | case1 => simp [firstKeep]
  | case2 x xs ih =>
    rw [firstKeep]
    exact (ih.trans (List.filter_sublist xs)).cons₂ x

theorem mem_firstKeep {α : Type} [DecidableEq α] (l : List α) (x : α) :
    x ∈ firstKeep l ↔ x ∈ l := by
  induction l using firstKeep.induct with
  | case1 => simp [firstKeep]
  | case2 y ys ih =>
    rw [firstKeep]
    simp only [List.mem_cons, ih, List.mem_filter]
    constructor
    · rintro (rfl | ⟨h, _⟩)
      · exact Or.inl rfl
      · exact Or.inr h
    · rintro (rfl | h)
      · exact Or.inl rfl
      · by_cases hxy : x = y
        · exact Or.inl hxy
        · exact Or.inr ⟨h, by simpa using hxy⟩

theorem firstKeep_nodup {α : Type} [DecidableEq α] (l : List α) : (firstKeep l).Nodup := by
  induction l using firstKeep.induct with
  | case1 => simp [firstKeep]
  | case2 y ys ih =>
    rw [firstKeep]
    refine List.nodup_cons.mpr ⟨fun hy => ?_, ih⟩
    have := (mem_firstKeep _ _).mp hy
    simp [List.mem_filter] at this

theorem foldl_appendIfNew_eq :
    ∀ (l cur : List ServiceAccount),
      l.foldl appendIfNew cur = cur ++ firstKeep (l.filter (fun x => x ∉ cur))
  | [], cur => by simp [firstKeep]
  | x :: xs, cur => by
    rw [List.foldl_cons]
    by_cases hx : x ∈ cur
    · have h1 : appendIfNew cur x = cur := by simp [appendIfNew, hx]
      rw [h1, foldl_appendIfNew_eq xs cur, List.filter_cons]
      simp [hx]
    · have h1 : appendIfNew cur x = cur ++ [x] := by simp [appendIfNew, hx]
      rw [h1, foldl_appendIfNew_eq xs (cur ++ [x]), List.filter_cons]
      rw [if_pos (by simp [hx])]
      rw [firstKeep_cons, List.append_assoc]
      have hf : xs.filter (fun y => decide (y ∉ cur ++ [x])) =
          (xs.filter (fun y => decide (y ∉ cur))).filter (fun y => decide (y ≠ x)) := by
        rw [List.filter_filter]
        apply List.filter_congr
        intro a _
        by_cases h1 : a = x <;> by_cases h2 : a ∈ cur <;> simp [h1, h2]
      rw [hf]
      rfl

theorem matchLoop_service_accounts :
    ∀ (excs : List Exception) (project_id : String) (acc mo : MatchOutcome),
      matchLoop project_id excs acc = .ok mo →
      mo.service_accounts = (saContrib excs project_id).foldl appendIfNew acc.service_accounts
  | [], project_id, acc, mo => by
    intro h
    rw [matchLoop] at h
    cases h
    simp [saContrib]
  | exc :: rest, project_id, acc, mo => by
    intro h
    rw [matchLoop] at h
    cases hc : compileRE exc.project_id_regex with
    | none => rw [hc] at h; cases h
    | some r =>
      rw [hc] at h
      simp only [] at h
      by_cases hm : reMatchB r project_id
      · rw [if_pos hm] at h
        by_cases ht : exc.type = "create_service_accounts"
        · rw [if_pos ht] at h
          rw [matchLoop_service_accounts rest project_id _ mo h]
          have hkeep : saContrib (exc :: rest) project_id =
              exc.spec.service_accounts ++ saContrib rest project_id := by
            simp [saContrib, List.filter_cons, ruleMatchB, hc, hm, ht]
          rw [hkeep, List.foldl_append]
        · by_cases ht2 : exc.type = "override_iam_policies"
          · rw [if_neg ht, if_pos ht2] at h; cases h
          · rw [if_neg ht, if_neg ht2] at h
            rw [matchLoop_service_accounts rest project_id _ mo h]
            have hdrop : saContrib (exc :: rest) project_id = saContrib rest project_id := by
              simp [saContrib, List.filter_cons, ruleMatchB, hc, hm, ht]
            rw [hdrop]
      · rw [if_neg hm] at h
        rw [matchLoop_service_accounts rest project_id _ mo h]
        have hdrop : saContrib (exc :: rest) project_id = saContrib rest project_id := by
          simp [saContrib, List.filter_cons, ruleMatchB, hc, hm]
        rw [hdrop]

theorem matchLoop_overrides :
    ∀ (excs : List Exception) (project_id : String) (acc mo : MatchOutcome),
      (∀ e ∈ excs, e.type = "create_service_accounts") →
      matchLoop project_id excs acc = .ok mo →
      mo.iam_policy_overrides = acc.iam_policy_overrides
  | [], project_id, acc, mo => by
    intro _ h
    rw [matchLoop] at h
    cases h
    rfl
  | exc :: rest, project_id, acc, mo => by
    intro hall h
    rw [matchLoop] at h
    cases hc : compileRE exc.project_id_regex with
    | none => rw [hc] at h; cases h
    | some r =>
      rw [hc] at h
      simp only [] at h
      have ht : exc.type = "create_service_accounts" := hall exc (List.mem_cons_self _ _)
      by_cases hm : reMatchB r project_id
      · rw [if_pos hm, if_pos ht] at h
        exact matchLoop_overrides rest project_id
          ⟨acc.matched_exceptions ++ [exc.id],
           List.foldl appendIfNew acc.service_accounts exc.spec.service_accounts,
           acc.iam_policy_overrides⟩ mo
          (fun e he => hall e (List.mem_cons_of_mem _ he)) h
      · rw [if_neg hm] at h
        exact matchLoop_overrides rest project_id _ mo
          (fun e he => hall e (List.mem_cons_of_mem _ he)) h

theorem validateList_mem {α : Type} (f : JValue → Except String α) :
    ∀ (xs : List JValue) (ys : List α), validateList f xs = .ok ys →
      ∀ y ∈ ys, ∃ x ∈ xs, f x = .ok y
  | [], ys => by
    intro h y hy
    rw [validateList] at h
    cases h
    cases hy
  | x :: xs, ys => by
    intro h y hy
    rw [validateList] at h
    cases hfx : f x with
    | error e => rw [hfx] at h; simp [Bind.bind, Except.bind] at h
    | ok a =>
      rw [hfx] at h
      cases hrec : validateList f xs with
      | error e => rw [hrec] at h; simp [Bind.bind, Except.bind] at h
      | ok as =>
        rw [hrec] at h
        simp only [Bind.bind, Except.bind, Except.ok.injEq] at h
        subst h
        rcases List.mem_cons.mp hy with rfl | hy2
        · exact ⟨x, List.mem_cons_self _ _, hfx⟩
        · obtain ⟨x2, hx2, hfx2⟩ := validateList_mem f xs as hrec y hy2
          exact ⟨x2, List.mem_cons_of_mem _ hx2, hfx2⟩

theorem validateException_type (j : JValue) (e : Exception)
    (h : validateException j = .ok e) : e.type = "create_service_accounts" := by
  cases j with
  | obj kvs =>
    rw [validateException] at h
    cases h1 : reqStr kvs "id" with
    | error _ => rw [h1] at h; simp [Bind.bind, Except.bind] at h
    | ok i =>
      rw [h1] at h
      simp only [Bind.bind, Except.bind] at h
      split at h
      · cases h
      · cases h2 : reqStr kvs "type" with
        | error _ => rw [h2] at h; simp [Except.bind] at h
        | ok ty =>
          rw [h2] at h
          simp only [Except.bind] at h
          split at h
          · cases h
          · rename_i hty
            cases h3 : reqStr kvs "project_id_regex" with
            | error _ => rw [h3] at h; simp [Except.bind] at h
            | ok rgx =>
              rw [h3] at h
              simp only [Except.bind] at h
              split at h
              · cases h
              · cases h4 : reqStr kvs "description" with
                | error _ => rw [h4] at h; simp [Except.bind] at h
                | ok desc =>
                  rw [h4] at h
                  simp only [Except.bind] at h
                  split at h
                  · cases h
                  · cases h5 : jLookup kvs "spec" with
                    | none => rw [h5] at h; simp [Except.bind] at h
                    | some sv =>
                      rw [h5] at h
                      simp only [] at h
                      cases h6 : validateSpec sv with
                      | error _ => rw [h6] at h; simp [Except.bind] at h
                      | ok sp =>
                        rw [h6] at h
                        simp only [Except.bind, Except.ok.injEq] at h
                        subst h
                        simpa using hty
  | null => exact nomatch h
  | bool b => exact nomatch h
  | num q => exact nomatch h
  | str s => exact nomatch h
  | arr xs => exact nomatch h

theorem model_validate_exceptions (j : JValue) (s : ExceptionsSchema)
    (h : ExceptionsSchema.model_validate j = .ok s) :
    ∀ e ∈ s.exceptions, ∃ x, validateException x = .ok e := by
  cases j with
  | obj kvs =>
    rw [ExceptionsSchema.model_validate] at h
    cases h1 : reqStr kvs "version" with
    | error _ => rw [h1] at h; simp [Bind.bind, Except.bind] at h
    | ok v =>
      rw [h1] at h
      simp only [Bind.bind, Except.bind] at h
      split at h
      · cases h
      · cases h2 : jLookup kvs "exceptions" with
        | none => rw [h2] at h; simp [Except.bind] at h
        | some ev =>
          rw [h2] at h
          cases ev with
          | arr xs =>
            simp only [] at h
            cases h3 : validateList validateException xs with
            | error _ => rw [h3] at h; simp [Except.bind] at h
            | ok excs =>
              rw [h3] at h
              simp only [Except.bind, Except.ok.injEq] at h
              subst h
              intro e he
              obtain ⟨x, _, hx⟩ := validateList_mem validateException xs excs h3 e he
              exact ⟨x, hx⟩
          | null => simp [Except.bind] at h
          | bool b => simp [Except.bind] at h
          | num q => simp [Except.bind] at h
          | str s2 => simp [Except.bind] at h
          | obj kvs2 => simp [Except.bind] at h
  | null => exact nomatch h
  | bool b => exact nomatch h
  | num q => exact nomatch h
  | str s2 => exact nomatch h
  | arr xs => exact nomatch h

/-- Every rule in a document `model_validate` accepted carries the literal
tag `create_service_accounts`. -/
theorem model_validate_types (j : JValue) (s : ExceptionsSchema)
    (h : ExceptionsSchema.model_validate j = .ok s) :
    ∀ e ∈ s.exceptions, e.type = "create_service_accounts" := by
  intro e he
  obtain ⟨x, hx⟩ := model_validate_exceptions j s h e he
  exact validateException_type x e hx

theorem process_exceptions_shape (schema_data : JValue) (project_id : String) (out : JValue)
    (h : process_exceptions schema_data project_id = .ok out) :
    ∃ s mo, ExceptionsSchema.model_validate schema_data = .ok s ∧
      matchLoop project_id s.exceptions ⟨[], [], []⟩ = .ok mo ∧
      out = .obj [("project_id", .str project_id), ("region", .str region),
                  ("service_accounts", .arr (mo.service_accounts.map ServiceAccount.model_dump)),
                  ("iam_policy_overrides", .arr mo.iam_policy_overrides)] := by
  rw [process_exceptions] at h
  cases hv : ExceptionsSchema.model_validate schema_data with
  | error e => rw [hv] at h; cases h
  | ok s =>
    rw [hv] at h
    simp only [] at h
    cases hm : matchLoop project_id s.exceptions ⟨[], [], []⟩ with
    | error e => rw [hm] at h; cases h
    | ok mo =>
      rw [hm] at h
      simp only [Except.ok.injEq] at h
      exact ⟨s, mo, rfl, hm, h.symm⟩

example : ExceptionsSchema.model_validate labDoc = .ok labSchema := by rfl
example : ExceptionsSchema.model_validate dupIdDoc =
    .ok ⟨"1.0.0", [ruleR "100" "^lab-", ruleR "100" "^prod-"]⟩ := by rfl

/-- C1: the claim says `ExceptionsSchema.model_validate` (as invoked by
`process_exceptions`) rejects documents with duplicate rule ids.  It does
not: `validate_unique_ids` is an undecorated method `model_validate` never
calls.  On the duplicate-id document `dupIdDoc` validation succeeds and
produces a validated document; the uniqueness check would have rejected it
(naming `"100"`) had it been invoked. -/
theorem C1_dup_ids_pass_model_validate :
    (ExceptionsSchema.model_validate dupIdDoc).isOk = true ∧
    (ExceptionsSchema.model_validate dupIdDoc).bind ExceptionsSchema.validate_unique_ids =
      .error "Duplicate exception IDs found: 100" := by
  constructor
  · rfl
  · rfl

/-- C2: the claim says validation fails with an `InvalidRegexError` when a
rule's `project_id_regex` does not compile.  It does not:
`validate_regex` is an undecorated method `model_validate` never calls.
The document `badRegexDoc`, whose only rule's pattern is the malformed
`"("`, passes validation; the regex check would have rejected that rule had
it been invoked. -/
theorem C2_bad_regex_passes_model_validate :
    (ExceptionsSchema.model_validate badRegexDoc).isOk = true ∧
    (ExceptionsSchema.model_validate badRegexDoc).map
      (fun s => s.exceptions.map (fun e => (e.validate_regex).isOk)) = .ok [false] := by
  constructor
  · rfl
  · rfl

/-- C3: the claim says the matching phase cannot raise after validation
succeeds.  It can: `badRegexDoc` passes `model_validate` (see C2), and then
`re.match` on the malformed pattern `"("` raises `re.error` inside the
matching loop, so `process_exceptions` fails after successful validation. -/
theorem C3_match_phase_raises_after_validation :
    (ExceptionsSchema.model_validate badRegexDoc).isOk = true ∧
    process_exceptions badRegexDoc "lab-dev-01" = .error "re.error: bad pattern '('" := by
  constructor
  · rfl
  · rfl

/-- C4: rule matching is `re.match`'s prefix test — a match anchored at
position 0 that need not consume the whole string, not `fullmatch`.
Concretely: `^lab-` matches both `lab-dev-01` and `lab-devops-99` (and on
`lab-dev-01` it is a strict prefix match, not a full match), `^prod-.*$`
does not match `staging-prod-1`, and the matching loop on the validated
document agrees. -/
theorem C4_prefix_match_not_fullmatch :
    (∀ r s, reMatchB r s = true ↔ matchEnds r s.toList 0 ≠ []) ∧
    (∀ r s, reFullMatchB r s = true ↔ s.toList.length ∈ matchEnds r s.toList 0) ∧
    pyReMatch "^lab-" "lab-dev-01" = some true ∧
    pyReMatch "^lab-" "lab-devops-99" = some true ∧
    pyReMatch "^prod-.*$" "staging-prod-1" = some false ∧
    (∃ r, compileRE "^lab-" = some r ∧ reMatchB r "lab-dev-01" = true ∧
      reFullMatchB r "lab-dev-01" = false) ∧
    (matchLoop "lab-devops-99" labSchema.exceptions ⟨[], [], []⟩).map
      MatchOutcome.matched_exceptions = .ok ["100"] ∧
    (matchLoop "staging-prod-1" labSchema.exceptions ⟨[], [], []⟩).map
      MatchOutcome.matched_exceptions = .ok [] := by
  refine ⟨?_, ?_, by decide, by decide, by decide, ?_, by rfl, by rfl⟩
  · intro r s
    simp [reMatchB]
  · intro r s
    simp [reFullMatchB]
  · exact ⟨_, rfl, by decide, by decide⟩

/-- C5: when the loop returns, the aggregated service-account list is
exactly the contributions of matched rules — in rule document order, then
within-rule declaration order — with structurally identical later
duplicates dropped in favour of the first occurrence (`firstKeep`): the
result is a sublist of the raw contributions (never reordered, never merged
by field), contains no duplicates, and contains exactly the contributed
entries. -/
theorem C5_aggregation_dedup (s : ExceptionsSchema) (project_id : String) (mo : MatchOutcome)
    (h : matchLoop project_id s.exceptions ⟨[], [], []⟩ = .ok mo) :
    mo.service_accounts = firstKeep (saContrib s.exceptions project_id) ∧
    (firstKeep (saContrib s.exceptions project_id)).Sublist (saContrib s.exceptions project_id) ∧
    (firstKeep (saContrib s.exceptions project_id)).Nodup ∧
    ∀ x, x ∈ firstKeep (saContrib s.exceptions project_id) ↔
      x ∈ saContrib s.exceptions project_id := by
  refine ⟨?_, firstKeep_sublist _, firstKeep_nodup _, fun x => mem_firstKeep _ x⟩
  have h1 := matchLoop_service_accounts s.exceptions project_id ⟨[], [], []⟩ mo h
  rw [h1, foldl_appendIfNew_eq]
  simp

theorem C5_aggregation_dedup_witness :
    dupSaOutcome.service_accounts = firstKeep (saContrib dupSaSchema.exceptions "lab-dev-01") ∧
    (firstKeep (saContrib dupSaSchema.exceptions "lab-dev-01")).Sublist
      (saContrib dupSaSchema.exceptions "lab-dev-01") ∧
    (firstKeep (saContrib dupSaSchema.exceptions "lab-dev-01")).Nodup ∧
    (saData ∈ firstKeep (saContrib dupSaSchema.exceptions "lab-dev-01") ↔
      saData ∈ saContrib dupSaSchema.exceptions "lab-dev-01") :=
  ⟨(C5_aggregation_dedup dupSaSchema "lab-dev-01" dupSaOutcome (by rfl)).1,
   (C5_aggregation_dedup dupSaSchema "lab-dev-01" dupSaOutcome (by rfl)).2.1,
   (C5_aggregation_dedup dupSaSchema "lab-dev-01" dupSaOutcome (by rfl)).2.2.1,
   (C5_aggregation_dedup dupSaSchema "lab-dev-01" dupSaOutcome (by rfl)).2.2.2 saData⟩

/-- C6: every successful run writes a JSON object with exactly the keys
`project_id`, `region`, `service_accounts`, `iam_policy_overrides` in that
insertion order, where `project_id` is the given project id and `region` is
the hard-coded constant `"europe-west4"` regardless of input; the CLI
writes exactly that object serialized by the 4-space-indent serializer
(`pyDump4`, the model of `json.dump(..., indent=4)`). -/
theorem C6_output_shape (schema_data : JValue) (project_id : String) (out : JValue)
    (h : process_exceptions schema_data project_id = .ok out) :
    (∃ sas ov, out = .obj [("project_id", .str project_id), ("region", .str "europe-west4"),
        ("service_accounts", .arr sas), ("iam_policy_overrides", .arr ov)]) ∧
    (∀ raw, jsonLoads raw = some schema_data →
      cliMainJsonString raw project_id =
        [Effect.mkdirParent, Effect.writeOutput (pyDump4 out)]) := by
  obtain ⟨s, mo, hv, hm, hout⟩ := process_exceptions_shape _ _ _ h
  constructor
  · exact ⟨_, _, hout⟩
  · intro raw hraw
    simp only [cliMainJsonString, hraw, h]

theorem C6_output_shape_witness :
    (∃ sas ov, emptyOut = .obj [("project_id", .str "lab-dev-01"),
        ("region", .str "europe-west4"), ("service_accounts", .arr sas),
        ("iam_policy_overrides", .arr ov)]) ∧
    cliMainJsonString emptyRaw "lab-dev-01" =
      [Effect.mkdirParent, Effect.writeOutput (pyDump4 emptyOut)] :=
  ⟨(C6_output_shape emptyDoc "lab-dev-01" emptyOut (by rfl)).1,
   (C6_output_shape emptyDoc "lab-dev-01" emptyOut (by rfl)).2 emptyRaw (by rfl)⟩

/-- C7: on a syntactically invalid `--schema-json-string` the CLI logs and
exits with status 1 before doing anything else, and on a document that
fails schema validation the run ends in the uncaught `ValueError` (a
non-zero interpreter exit); in both cases no write of the output file ever
appears in the run's effects — parsing and validation fail before any
matching or writing. -/
theorem C7_invalid_input_never_writes (raw : String) (project_id : String) :
    (jsonLoads raw = none →
      cliMainJsonString raw project_id = [Effect.exitOne] ∧
      (cliMainJsonString raw project_id).all (fun eff => !eff.isWrite) = true) ∧
    (∀ d msg, jsonLoads raw = some d → ExceptionsSchema.model_validate d = .error msg →
      cliMainJsonString raw project_id =
        [Effect.mkdirParent, Effect.raised ("Invalid schema: " ++ msg)] ∧
      (cliMainJsonString raw project_id).all (fun eff => !eff.isWrite) = true) := by
  constructor
  · intro hn
    have ht : cliMainJsonString raw project_id = [Effect.exitOne] := by
      simp only [cliMainJsonString, hn]
    rw [ht]
    exact ⟨rfl, rfl⟩
  · intro d msg hd hv
    have hp : process_exceptions d project_id = .error ("Invalid schema: " ++ msg) := by
      simp only [process_exceptions, hv]
    have ht : cliMainJsonString raw project_id =
        [Effect.mkdirParent, Effect.raised ("Invalid schema: " ++ msg)] := by
      simp only [cliMainJsonString, hd, hp]
    rw [ht]
    exact ⟨rfl, rfl⟩

theorem C7_invalid_input_never_writes_witness :
    (cliMainJsonString "\x7b" "lab-dev-01" = [Effect.exitOne] ∧
     (cliMainJsonString "\x7b" "lab-dev-01").all (fun eff => !eff.isWrite) = true) ∧
    (cliMainJsonString badSchemaRaw "lab-dev-01" =
       [Effect.mkdirParent,
        Effect.raised ("Invalid schema: " ++ "exceptions: Input should be a valid list")] ∧
     (cliMainJsonString badSchemaRaw "lab-dev-01").all (fun eff => !eff.isWrite) = true) :=
  ⟨(C7_invalid_input_never_writes "\x7b" "lab-dev-01").1 (by rfl),
   (C7_invalid_input_never_writes badSchemaRaw "lab-dev-01").2 badSchemaDoc
     "exceptions: Input should be a valid list" (by rfl) (by rfl)⟩

/-- C10: when the input parses as JSON but fails schema validation, the
CLI has already created the output path's parent directories (the `mkdir`
is the run's first effect, before validation), while the output file
itself is never written. -/
theorem C10_mkdir_precedes_validation (raw : String) (project_id : String) (d : JValue)
    (msg : String) (h1 : jsonLoads raw = some d)
    (h2 : ExceptionsSchema.model_validate d = .error msg) :
    (cliMainJsonString raw project_id).head? = some Effect.mkdirParent ∧
    Effect.mkdirParent ∈ cliMainJsonString raw project_id ∧
    (cliMainJsonString raw project_id).all (fun eff => !eff.isWrite) = true := by
  have hp : process_exceptions d project_id = .error ("Invalid schema: " ++ msg) := by
    simp only [process_exceptions, h2]
  have ht : cliMainJsonString raw project_id =
      [Effect.mkdirParent, Effect.raised ("Invalid schema: " ++ msg)] := by
    simp only [cliMainJsonString, h1, hp]
  rw [ht]
  exact ⟨rfl, List.mem_cons_self _ _, rfl⟩

theorem C10_mkdir_precedes_validation_witness :
    (cliMainJsonString badSchemaRaw "lab-dev-01").head? = some Effect.mkdirParent ∧
    Effect.mkdirParent ∈ cliMainJsonString badSchemaRaw "lab-dev-01" ∧
    (cliMainJsonString badSchemaRaw "lab-dev-01").all (fun eff => !eff.isWrite) = true :=
  C10_mkdir_precedes_validation badSchemaRaw "lab-dev-01" badSchemaDoc
    "exceptions: Input should be a valid list" (by rfl) (by rfl)

/-- C8: validation accepts a rule's `type` only when it is the literal
`"create_service_accounts"` (any other tag, including
`"override_iam_policies"`, fails the per-rule validator), so after
validation every rule carries that literal, the `override_iam_policies`
aggregation branch is unreachable (the overrides accumulator is never
extended), and the `iam_policy_overrides` array of every successful output
is empty. -/
theorem C8_type_literal_overrides_empty (j : JValue) (s : ExceptionsSchema)
    (h : ExceptionsSchema.model_validate j = .ok s) :
    (∀ jv e, validateException jv = .ok e → e.type = "create_service_accounts") ∧
    (∀ e ∈ s.exceptions, e.type = "create_service_accounts") ∧
    (∀ project_id mo, matchLoop project_id s.exceptions ⟨[], [], []⟩ = .ok mo →
      mo.iam_policy_overrides = []) ∧
    (∀ project_id out, process_exceptions j project_id = .ok out →
      ∃ sas, out = .obj [("project_id", .str project_id), ("region", .str "europe-west4"),
        ("service_accounts", .arr sas), ("iam_policy_overrides", .arr [])]) := by
  refine ⟨fun jv e => validateException_type jv e, model_validate_types j s h, ?_, ?_⟩
  · intro project_id mo hm
    exact matchLoop_overrides s.exceptions project_id ⟨[], [], []⟩ mo
      (model_validate_types j s h) hm
  · intro project_id out ho
    obtain ⟨s2, mo, hv2, hm2, hout⟩ := process_exceptions_shape j project_id out ho
    simp only [h, Except.ok.injEq] at hv2
    subst hv2
    have hov : mo.iam_policy_overrides = [] :=
      matchLoop_overrides s.exceptions project_id ⟨[], [], []⟩ mo
        (model_validate_types j s h) hm2
    refine ⟨mo.service_accounts.map ServiceAccount.model_dump, ?_⟩
    rw [hout, hov]
    rfl

theorem C8_type_literal_overrides_empty_witness :
    (ruleR "100" "^lab-").type = "create_service_accounts" ∧
    (⟨["100"], [saData], []⟩ : MatchOutcome).iam_policy_overrides = [] ∧
    (∃ sas, labOut99 = .obj [("project_id", .str "lab-devops-99"),
      ("region", .str "europe-west4"), ("service_accounts", .arr sas),
      ("iam_policy_overrides", .arr [])]) :=
  ⟨(C8_type_literal_overrides_empty labDoc labSchema (by rfl)).1
     (ruleJ "100" "^lab-") (ruleR "100" "^lab-") (by rfl),
   (C8_type_literal_overrides_empty labDoc labSchema (by rfl)).2.2.1
     "lab-devops-99" ⟨["100"], [saData], []⟩ (by rfl),
   (C8_type_literal_overrides_empty labDoc labSchema (by rfl)).2.2.2
     "lab-devops-99" labOut99 (by rfl)⟩

theorem stripFinalNewline_eq (l : List Char) :
    l = stripFinalNewline l ∨ l = stripFinalNewline l ++ ['\n'] := by
  unfold stripFinalNewline
  split
  · rename_i hnl
    right
    rcases List.eq_nil_or_concat l with rfl | ⟨l2, a, hla⟩
    · simp at hnl
    · rw [List.concat_eq_append] at hla
      subst hla
      have ha : a = '\n' := by simpa using hnl
      simp [ha]
  · left
    rfl

theorem parse_ok_shape (s : String) (v : ℚ) (h : parse_time_duration s = .ok v) :
    ∃ num u nl, lowerChars s = num ++ [u] ++ nl ∧ (nl = [] ∨ nl = ['\n']) ∧
      (u = 'd' ∨ u = 'h' ∨ u = 'm') ∧ durNumPat num = true := by
  rw [parse_time_duration] at h
  split at h
  · cases h
  · split at h
    · rename_i hcond
      rcases List.eq_nil_or_concat (stripFinalNewline (lowerChars s)) with hnil | ⟨l2, a, hla⟩
      · rw [hnil] at hcond
        simp [durNumPat] at hcond
      · rw [List.concat_eq_append] at hla
        have hu : (stripFinalNewline (lowerChars s)).getLastD ' ' = a := by rw [hla]; simp
        have hnum : (stripFinalNewline (lowerChars s)).dropLast = l2 := by rw [hla]; simp
        rw [hu, hnum] at hcond
        simp only [Bool.and_eq_true, Bool.or_eq_true, decide_eq_true_eq] at hcond
        rcases stripFinalNewline_eq (lowerChars s) with he | he
        · exact ⟨l2, a, [], by rw [he, hla, List.append_nil], Or.inl rfl, by tauto, hcond.2⟩
        · exact ⟨l2, a, ['\n'], by rw [he, hla], Or.inr rfl, by tauto, hcond.2⟩
    · cases h

theorem parse_bad_unit (s : String)
    (h : ¬ ((stripFinalNewline (lowerChars s)).getLastD ' ' = 'd' ∨
        (stripFinalNewline (lowerChars s)).getLastD ' ' = 'h' ∨
        (stripFinalNewline (lowerChars s)).getLastD ' ' = 'm')) :
    (parse_time_duration s).isOk = false := by
  push_neg at h
  obtain ⟨h1, h2, h3⟩ := h
  rw [parse_time_duration]
  split
  · rfl
  · rw [if_neg (fun hcontra => by
      simp only [Bool.and_eq_true, Bool.or_eq_true, decide_eq_true_eq] at hcontra
      tauto)]
    rfl

theorem handler_new_expiration (ev : SecretEvent) (secret : SecretResource) (now : ℚ) (x : ℚ)
    (h : (handle_secret_expiration ev secret now).new_expire_time = some x) :
    ∃ t ds v, secret.expire_time = some t ∧
      labelGet secret.labels "ccoe_expiration_extension_time" = some ds ∧
      parse_time_duration ds = .ok v ∧ x = t + v := by
  rw [handle_secret_expiration] at h
  split at h
  · cases h
  · split at h
    · cases h
    · split at h
      · cases h
      · split at h
        · cases h
        · rename_i hguard2
          split at h
          · cases h
          · rename_i v heq
            split at h
            · cases h
            · rename_i t hexp
              cases hlab : labelGet secret.labels "ccoe_expiration_extension_time" with
              | none =>
                rw [hlab] at hguard2
                simp [truthyOpt] at hguard2
              | some ds =>
                rw [hlab] at heq
                simp only [Option.getD_some] at heq
                simp only [Option.some.injEq] at h
                exact ⟨t, ds, v, hexp, rfl, heq, h.symm⟩

/-- C9 (amended): `parse_time_duration` accepts (up to lowercasing)
exactly strings of the form `<number><unit>` with unit in `{d, h, m}`,
optionally followed by one trailing newline, which Python `re`'s `$`
anchor also accepts — whenever parsing succeeds the lowercased input
splits as a `\d*\.?\d+` numeric group, one of those unit letters, and an
optional final `'\n'`; and after stripping that optional newline it fails
whenever the last character is not a unit letter (in particular on a
missing unit).  Whenever the handler writes a new expiration it equals the
secret's current `expire_time` plus the parsed duration — with the
handler's result independent of the wall clock `now`, so the new
expiration is never `now + duration`. -/
theorem C9_duration_parse_and_expiration_base :
    (∀ s v, parse_time_duration s = .ok v →
      ∃ num u nl, lowerChars s = num ++ [u] ++ nl ∧ (nl = [] ∨ nl = ['\n']) ∧
        (u = 'd' ∨ u = 'h' ∨ u = 'm') ∧ durNumPat num = true) ∧
    (∀ s, ¬ ((stripFinalNewline (lowerChars s)).getLastD ' ' = 'd' ∨
        (stripFinalNewline (lowerChars s)).getLastD ' ' = 'h' ∨
        (stripFinalNewline (lowerChars s)).getLastD ' ' = 'm') →
      (parse_time_duration s).isOk = false) ∧
    (∀ ev secret now x, (handle_secret_expiration ev secret now).new_expire_time = some x →
      ∃ t ds v, secret.expire_time = some t ∧
        labelGet secret.labels "ccoe_expiration_extension_time" = some ds ∧
        parse_time_duration ds = .ok v ∧ x = t + v) ∧
    (∀ ev secret now now2,
      handle_secret_expiration ev secret now = handle_secret_expiration ev secret now2) :=
  ⟨parse_ok_shape, parse_bad_unit, handler_new_expiration, fun _ _ _ _ => rfl⟩

theorem C9_duration_parse_and_expiration_base_witness :
    (∃ num u nl, lowerChars "2d" = num ++ [u] ++ nl ∧ (nl = [] ∨ nl = ['\n']) ∧
      (u = 'd' ∨ u = 'h' ∨ u = 'm') ∧ durNumPat num = true) ∧
    (parse_time_duration "2x").isOk = false ∧
    (∃ t ds v, secret9.expire_time = some t ∧
      labelGet secret9.labels "ccoe_expiration_extension_time" = some ds ∧
      parse_time_duration ds = .ok v ∧ (100 + durValue ['2'] : ℚ) = t + v) ∧
    handle_secret_expiration ev9 secret9 0 = handle_secret_expiration ev9 secret9 365 :=
  ⟨C9_duration_parse_and_expiration_base.1 "2d" (durValue ['2']) (by rfl),
   C9_duration_parse_and_expiration_base.2.1 "2x" (by decide),
   C9_duration_parse_and_expiration_base.2.2.1 ev9 secret9 0 (100 + durValue ['2']) (by rfl),
   C9_duration_parse_and_expiration_base.2.2.2 ev9 secret9 0 365⟩

/-- C9 counterexample: the claim says the handler parses the duration
*only* from strings of the form `<number><unit>`, failing otherwise.  But
`"2d\n"` — whose last character is a newline, not a unit letter, so it is
not of that form — parses successfully, to the same 2-day value as
`"2d"`: Python `re`'s `$` anchor also matches just before one final
newline. -/
theorem C9_trailing_newline_counterexample :
    (parse_time_duration "2d\n").isOk = true ∧
    ¬ ((lowerChars "2d\n").getLastD ' ' = 'd' ∨ (lowerChars "2d\n").getLastD ' ' = 'h' ∨
       (lowerChars "2d\n").getLastD ' ' = 'm') ∧
    parse_time_duration "2d\n" = .ok (durValue ['2']) ∧
    parse_time_duration "2d\n" = parse_time_duration "2d" :=
  ⟨by rfl, by decide, by rfl, by rfl⟩
